import Mathlib

/-!
# FNA — Financial Narrative Analyzer: formal model of the core

Shallow embedding of the report-processing lifecycle, batch orchestration,
delta/alerting engine and the comparison UI of the FNA repository.

The backend Python services (Delta Engine, Batch Orchestrator, Report
Lifecycle Manager, Alert Engine) are not present in the repository snapshot:
only their documentation (`docs/api/README.md`, batch-processing and CLI
docs) and the frontend that calls them are.  Definitions for those parts are
therefore modelled from the spec, as marked in their doc comments.  The
frontend components (`AlertsPanel.tsx`, `ReportComparison.tsx`) are present
and are embedded directly from their TypeScript source.

Scores and percentages are modelled as rationals (ℚ), filing dates as
integers (millisecond timestamps), identifiers as naturals or strings.
-/

namespace FNA

/-! ## Data model -/

/-- Qualitative significance bucket of a Delta. -/
inductive Significance
  | MINOR
  | MODERATE
  | MAJOR
  | CRITICAL
deriving DecidableEq, Repr

/-- Numeric severity level of a significance bucket, used to state
monotonicity of the classification. -/
def Significance.level : Significance → Nat
  | .MINOR => 0
  | .MODERATE => 1
  | .MAJOR => 2
  | .CRITICAL => 3

/-- Per-report processing status. -/
inductive ReportStatus
  | PENDING
  | PROCESSING
  | COMPLETED
  | FAILED
deriving DecidableEq, Repr

/-- Aggregate status of a batch job. -/
inductive BatchStatus
  | PENDING
  | PROCESSING
  | COMPLETED
  | FAILED
  | PARTIALLY_COMPLETED
deriving DecidableEq, Repr

/-- A completed sentiment analysis of one report, flattened with the
entity id and filing date of its report (the fields the Delta Engine
validation reads). -/
structure Analysis where
  entityId : Nat
  filingDate : Int
  optimism : ℚ
  risk : ℚ
  uncertainty : ℚ
deriving DecidableEq, Repr

/-! ## Delta Engine -/

/-- Modelled from the spec: significance classification on
`max(|optimismDelta|, |riskDelta|, |uncertaintyDelta|) * 100`:
`<10 → MINOR`, `[10,20) → MODERATE`, `[20,35) → MAJOR`, `≥35 → CRITICAL`.
The backend Delta Engine source is absent from the snapshot; only the docs
describe it.  `classifyOfMax` takes the already-scaled magnitude `m`. -/
def classifyOfMax (m : ℚ) : Significance :=
  if m < 10 then .MINOR
  else if m < 20 then .MODERATE
  else if m < 35 then .MAJOR
  else .CRITICAL

/-- Modelled from the spec: the scaled magnitude the classification reads. -/
def maxDeltaMagnitude (optimismDelta riskDelta uncertaintyDelta : ℚ) : ℚ :=
  max |optimismDelta| (max |riskDelta| |uncertaintyDelta|) * 100

/-- Modelled from the spec: classification of a Delta from its three
per-dimension deltas. -/
def classifySignificance (optimismDelta riskDelta uncertaintyDelta : ℚ) : Significance :=
  classifyOfMax (maxDeltaMagnitude optimismDelta riskDelta uncertaintyDelta)

/-- Modelled from the spec:
`overallSentimentDelta = (optimismDelta - riskDelta - uncertaintyDelta) / 3`. -/
def overallSentimentDelta (optimismDelta riskDelta uncertaintyDelta : ℚ) : ℚ :=
  (optimismDelta - riskDelta - uncertaintyDelta) / 3

/-- The change report produced by the Delta Engine (theme evolution omitted:
no claim under verification touches it). -/
structure Delta where
  entityId : Nat
  baseFilingDate : Int
  comparisonFilingDate : Int
  optimismDelta : ℚ
  riskDelta : ℚ
  uncertaintyDelta : ℚ
  overall : ℚ
  significance : Significance
deriving DecidableEq, Repr

/-- Errors of the Delta Engine. -/
inductive CompareError
  | comparisonInvalid
deriving DecidableEq, Repr

/-- Modelled from the spec: per-dimension delta = comparison.score − base.score,
composite via `overallSentimentDelta`, bucket via `classifySignificance`. -/
def computeDelta (base comp : Analysis) : Delta :=
  { entityId := base.entityId
    baseFilingDate := base.filingDate
    comparisonFilingDate := comp.filingDate
    optimismDelta := comp.optimism - base.optimism
    riskDelta := comp.risk - base.risk
    uncertaintyDelta := comp.uncertainty - base.uncertainty
    overall := overallSentimentDelta (comp.optimism - base.optimism)
      (comp.risk - base.risk) (comp.uncertainty - base.uncertainty)
    significance := classifySignificance (comp.optimism - base.optimism)
      (comp.risk - base.risk) (comp.uncertainty - base.uncertainty) }

/-- Modelled from the spec: `compare` validates that both analyses belong to
the same entity and that the comparison filing date is strictly later;
otherwise it fails with `ComparisonInvalidError` and produces (persists) no
Delta — the error branch of the `Except` carries no `Delta` value. -/
def compare (base comp : Analysis) : Except CompareError Delta :=
  if base.entityId ≠ comp.entityId then .error .comparisonInvalid
  else if comp.filingDate ≤ base.filingDate then .error .comparisonInvalid
  else .ok (computeDelta base comp)

/-! ## Report Lifecycle Manager -/

/-- A report as seen by the lifecycle manager. -/
structure Report where
  id : Nat
  status : ReportStatus
  lastError : Option String
deriving DecidableEq, Repr

/-- Errors of `requeue`. -/
inductive RequeueError
  | invalidState
deriving DecidableEq, Repr

/-- Modelled from the spec: `requeue(reportId, force=false)`: PENDING only
reachable from FAILED unless `force=true` (then also from COMPLETED); clears
`lastError`.  The backend lifecycle code is absent from the snapshot (only
the CLI docs for `process_pending_reports --force` describe it).  On
rejection the `Except` error branch carries no updated report, so the stored
report is left unchanged. -/
def requeue (r : Report) (force : Bool) : Except RequeueError Report :=
  match r.status with
  | .FAILED => .ok { r with status := .PENDING, lastError := none }
  | .COMPLETED =>
    if force then .ok { r with status := .PENDING, lastError := none }
    else .error .invalidState
  | _ => .error .invalidState

/-! ## Batch Orchestrator -/

/-- Subscription tier of the caller. -/
inductive Tier
  | Basic
  | Pro
  | Enterprise
deriving DecidableEq, Repr

/-- Validation errors (spec §7 taxonomy, restricted to the ones the claims
exercise). -/
inductive ValidationError
  | oversizedBatch
  | duplicateBatchMembers
  | thresholdOutOfRange
deriving DecidableEq, Repr

/-- Modelled from the spec: batch size limits by tier, Basic 3 / Pro 5–7 /
Enterprise 10.  The repository's docs disagree on the Pro limit
(`docs/api/README.md` says 5, the batch-processing doc says 7) and the
backend source is absent, so the Pro limit is kept as a parameter
constrained to `[5, 7]` in the theorems. -/
def tierLimit (proLimit : Nat) : Tier → Nat
  | .Basic => 3
  | .Pro => proLimit
  | .Enterprise => 10

/-- A batch job as created by `submit`. -/
structure BatchJob where
  memberReportIds : List Nat
  concurrencyLimit : Nat
  aggregate : BatchStatus
deriving DecidableEq, Repr

/-- Modelled from the spec: `submit(reportIds, concurrencyLimit)` rejects if
`reportIds` exceeds the caller's tier limit or contains duplicates;
otherwise it creates a BatchJob in PENDING. -/
def submit (proLimit : Nat) (tier : Tier) (reportIds : List Nat)
    (concurrencyLimit : Nat) : Except ValidationError BatchJob :=
  if tierLimit proLimit tier < reportIds.length then .error .oversizedBatch
  else if reportIds.Nodup then .ok ⟨reportIds, concurrencyLimit, .PENDING⟩
  else .error .duplicateBatchMembers

/-- A report status is terminal when it is COMPLETED or FAILED. -/
def isTerminal : ReportStatus → Bool
  | .COMPLETED => true
  | .FAILED => true
  | _ => false

/-- Modelled from the spec: aggregate status rule — PROCESSING while any
member is PENDING/PROCESSING; once all members are terminal, COMPLETED iff
all succeeded, FAILED iff all failed, PARTIALLY_COMPLETED otherwise. -/
def aggregateStatus (members : List ReportStatus) : BatchStatus :=
  if members.any fun s => s == .PENDING || s == .PROCESSING then .PROCESSING
  else if members.all fun s => s == .COMPLETED then .COMPLETED
  else if members.all fun s => s == .FAILED then .FAILED
  else .PARTIALLY_COMPLETED

/-- Number of members whose report failed. -/
def countFailed (members : List ReportStatus) : Nat :=
  members.countP fun s => s == .FAILED

/-- Modelled from the spec: the default `concurrencyLimit` of the Batch
Orchestrator is 4. -/
def defaultConcurrencyLimit : Nat := 4

/-- Number of members currently in PROCESSING. -/
def countProcessing (members : List ReportStatus) : Nat :=
  members.countP fun s => s == .PROCESSING

/-- State of one batch run: the per-member report statuses and the
concurrency bound of the run. -/
structure BatchRunState where
  members : List ReportStatus
  concurrencyLimit : Nat

/-- Modelled from the spec: the orchestrator dispatches `process` calls for
each member bounded by `concurrencyLimit`.  A member may be claimed
(PENDING → PROCESSING) only while fewer than `concurrencyLimit` members are
PROCESSING; a PROCESSING member may finish as COMPLETED or FAILED at any
time.  The backend orchestration source is absent from the snapshot. -/
inductive BatchStep : BatchRunState → BatchRunState → Prop
  | claim (s : BatchRunState) (i : Fin s.members.length)
      (hp : s.members.get i = .PENDING)
      (hc : countProcessing s.members < s.concurrencyLimit) :
      BatchStep s ⟨s.members.set i .PROCESSING, s.concurrencyLimit⟩
  | complete (s : BatchRunState) (i : Fin s.members.length)
      (hp : s.members.get i = .PROCESSING) :
      BatchStep s ⟨s.members.set i .COMPLETED, s.concurrencyLimit⟩
  | fail (s : BatchRunState) (i : Fin s.members.length)
      (hp : s.members.get i = .PROCESSING) :
      BatchStep s ⟨s.members.set i .FAILED, s.concurrencyLimit⟩

/-- Initial state of a batch run over `n` members: every member PENDING. -/
def initState (n limit : Nat) : BatchRunState :=
  ⟨List.replicate n .PENDING, limit⟩

/-- States reachable during a batch run of `n` members under bound `limit`. -/
def BatchReachable (n limit : Nat) : BatchRunState → Prop :=
  Relation.ReflTransGen BatchStep (initState n limit)

/-! ## Alert preferences -/

/-- Alert type of a preference. -/
inductive AlertType
  | SENTIMENT_SHIFT
  | RISK_INCREASE
  | THEME_CHANGE
deriving DecidableEq, Repr

/-- A stored alert preference. -/
structure AlertPreference where
  userId : Nat
  entityId : Nat
  alertType : AlertType
  thresholdPercentage : ℚ
deriving DecidableEq, Repr

/-- Modelled from the spec: `setAlertPreference(userId, entityId, alertType,
thresholdPercentage ∈ [5,50])` — validated and stored; out-of-range
thresholds are rejected.  The backend endpoint source is absent from the
snapshot (`docs/api/README.md` documents the 5.0%–50.0% range). -/
def setAlertPreference (userId entityId : Nat) (alertType : AlertType)
    (thresholdPercentage : ℚ) : Except ValidationError AlertPreference :=
  if 5 ≤ thresholdPercentage ∧ thresholdPercentage ≤ 50 then
    .ok ⟨userId, entityId, alertType, thresholdPercentage⟩
  else .error .thresholdOutOfRange

/-! ## Frontend: AlertsPanel (src/frontend/src/components/alerts/AlertsPanel.tsx) -/

/-- JavaScript `Math.round`: rounds to the nearest integer, halves toward
positive infinity, i.e. `⌊v + 1/2⌋`. -/
def jsRound (v : ℚ) : ℤ := ⌊v + (1 : ℚ) / 2⌋

/-- From `AlertsPanel.tsx`:
`Math.min(50, Math.max(5, Math.round(value)))`. -/
def clampPercent (value : ℚ) : ℤ := min 50 (max 5 (jsRound value))

/-! ## Frontend: ReportComparison (ReportComparison.tsx) -/

/-- A financial report row as the comparison form receives it from the API. -/
structure FinancialReport where
  id : Nat
  processing_status : String
  filing_date : Option Int
  created_at : Int
deriving DecidableEq, Repr

/-- From `ReportComparison.tsx`: the sort key of a report,
`new Date(r.filing_date || r.created_at).getTime()` — the filing date when
present, else the creation date. -/
def reportSortDate (r : FinancialReport) : Int :=
  r.filing_date.getD r.created_at

/-- From `ReportComparison.tsx`: the JS sort comparator `dateB - dateA` lets
`a` stand before `b` exactly when `dateB ≤ dateA`, i.e. descending by date. -/
def reportDateDesc (a b : FinancialReport) : Bool :=
  decide (reportSortDate b ≤ reportSortDate a)

/-- From `ReportComparison.tsx` `loadReports`: keep only reports whose
`processing_status` is `'COMPLETED'`, then sort by filing date (falling back
to `created_at`) most recent first. -/
def loadReportsSelect (allReports : List FinancialReport) : List FinancialReport :=
  (allReports.filter fun r => r.processing_status == "COMPLETED").mergeSort
    reportDateDesc

/-- Visible state of the comparison form that `handleCompare` touches. -/
structure CompareFormState where
  error : Option String
  result : Option Nat
deriving DecidableEq, Repr

/-- A comparison request POSTed to `/analysis/compare`. -/
structure CompareRequest where
  base_report_id : String
  comparison_report_id : String
deriving DecidableEq, Repr

/-- From `ReportComparison.tsx` `handleCompare`, up to the point the POST is
issued: an empty selection (JS falsy string) or equal selections set an
error message and return without a request; otherwise error and result are
cleared and the request is issued.  The asynchronous response handling is
not part of any claim and is omitted. -/
def handleCompare (baseReportId comparisonReportId : String)
    (s : CompareFormState) : CompareFormState × Option CompareRequest :=
  if baseReportId = "" ∨ comparisonReportId = "" then
    ({ s with error := some "Please select both reports to compare" }, none)
  else if baseReportId = comparisonReportId then
    ({ s with error := some "Please select two different reports" }, none)
  else
    ({ error := none, result := none }, some ⟨baseReportId, comparisonReportId⟩)

/-! ## Theorems -/

/-! ### Significance classification (shared helper lemmas) -/

theorem classifyOfMax_minor_iff (m : ℚ) : classifyOfMax m = .MINOR ↔ m < 10 := by
  unfold classifyOfMax
  split_ifs <;> simp_all

theorem classifyOfMax_moderate_iff (m : ℚ) :
    classifyOfMax m = .MODERATE ↔ 10 ≤ m ∧ m < 20 := by
  unfold classifyOfMax
  split_ifs <;> simp_all

theorem classifyOfMax_major_iff (m : ℚ) :
    classifyOfMax m = .MAJOR ↔ 20 ≤ m ∧ m < 35 := by
  unfold classifyOfMax
  split_ifs <;> simp_all
  all_goals intro hx; linarith

theorem classifyOfMax_critical_iff (m : ℚ) :
    classifyOfMax m = .CRITICAL ↔ 35 ≤ m := by
  unfold classifyOfMax
  split_ifs <;> simp_all
  all_goals linarith

theorem classifyOfMax_level_mono {m₁ m₂ : ℚ} (h : m₁ ≤ m₂) :
    (classifyOfMax m₁).level ≤ (classifyOfMax m₂).level := by
  unfold classifyOfMax
  split_ifs <;> simp_all [Significance.level]
  all_goals linarith

theorem maxDeltaMagnitude_single (x : ℚ) (hx : 0 ≤ x) :
    maxDeltaMagnitude x 0 0 = x * 100 := by
  unfold maxDeltaMagnitude
  rw [abs_of_nonneg hx]
  simp [max_eq_left hx]

/-- C1 counterexample: the claim maps a delta of exactly 35% to MAJOR, but
the classification rule it also states (`m ≥ 35 → CRITICAL`) puts the
boundary value 35 in CRITICAL. -/
theorem classify_at_35_not_major :
    classifySignificance 0.35 0 0 ≠ Significance.MAJOR := by
  have h : maxDeltaMagnitude 0.35 0 0 = 35 := by
    rw [maxDeltaMagnitude_single] <;> norm_num
  unfold classifySignificance
  rw [h]
  simp [classifyOfMax_major_iff]

/-- C1 (amended): the significance bucket is determined by
`m = max(|optimismDelta|, |riskDelta|, |uncertaintyDelta|) * 100` as
`m < 10 → MINOR`, `10 ≤ m < 20 → MODERATE`, `20 ≤ m < 35 → MAJOR`,
`m ≥ 35 → CRITICAL`; the classification is monotone in `m`, and deltas of
exactly 9%, 10%, 20%, 35%, 40% map to MINOR, MODERATE, MAJOR, CRITICAL,
CRITICAL respectively (the boundary value 35 falls in CRITICAL, not MAJOR). -/
theorem significance_classification (o r u m₁ m₂ : ℚ) (h : m₁ ≤ m₂) :
    (classifySignificance o r u = .MINOR ↔ maxDeltaMagnitude o r u < 10)
    ∧ (classifySignificance o r u = .MODERATE ↔
        10 ≤ maxDeltaMagnitude o r u ∧ maxDeltaMagnitude o r u < 20)
    ∧ (classifySignificance o r u = .MAJOR ↔
        20 ≤ maxDeltaMagnitude o r u ∧ maxDeltaMagnitude o r u < 35)
    ∧ (classifySignificance o r u = .CRITICAL ↔ 35 ≤ maxDeltaMagnitude o r u)
    ∧ (classifyOfMax m₁).level ≤ (classifyOfMax m₂).level
    ∧ classifySignificance 0.09 0 0 = .MINOR
    ∧ classifySignificance 0.10 0 0 = .MODERATE
    ∧ classifySignificance 0.20 0 0 = .MAJOR
    ∧ classifySignificance 0.35 0 0 = .CRITICAL
    ∧ classifySignificance 0.40 0 0 = .CRITICAL := by
  have ev : ∀ x : ℚ, 0 ≤ x → classifySignificance x 0 0 = classifyOfMax (x * 100) := by
    intro x hx
    unfold classifySignificance
    rw [maxDeltaMagnitude_single x hx]
  refine ⟨classifyOfMax_minor_iff _, classifyOfMax_moderate_iff _,
    classifyOfMax_major_iff _, classifyOfMax_critical_iff _,
    classifyOfMax_level_mono h, ?_, ?_, ?_, ?_, ?_⟩ <;>
    rw [ev _ (by norm_num)] <;>
    first
      | (rw [classifyOfMax_minor_iff]; norm_num)
      | (rw [classifyOfMax_moderate_iff]; norm_num)
      | (rw [classifyOfMax_major_iff]; norm_num)
      | (rw [classifyOfMax_critical_iff]; norm_num)

/-- C1 witness: the amended theorem applied at deltas (0.09, 0, 0) and
magnitudes m₁ = m₂ = 0. -/
theorem significance_classification_witness :
    classifySignificance 0.09 0 0 = Significance.MINOR :=
  (significance_classification 0.09 0 0 0 0 le_rfl).2.2.2.2.2.1

/-- C2: every Delta produced by `compare` has
`overall = (optimismDelta - riskDelta - uncertaintyDelta) / 3`, and the two
worked examples of the spec evaluate to 7/60 ≈ 0.1167 and 11/300 ≈ 0.0367. -/
theorem overall_sentiment_delta_formula (base comp : Analysis)
    (he : base.entityId = comp.entityId)
    (hd : base.filingDate < comp.filingDate) :
    (∃ d, compare base comp = .ok d
      ∧ d.overall = (d.optimismDelta - d.riskDelta - d.uncertaintyDelta) / 3)
    ∧ overallSentimentDelta 0.18 (-0.15) (-0.02) = 7 / 60
    ∧ overallSentimentDelta 0.08 (-0.05) 0.02 = 11 / 300 := by
  refine ⟨⟨computeDelta base comp, ?_, rfl⟩, ?_, ?_⟩
  · simp [compare, he, not_le.mpr hd]
  · unfold overallSentimentDelta; norm_num
  · unfold overallSentimentDelta; norm_num

/-- C2 witness: the theorem applied to the spec's example pair
(optimism 0.60 → 0.78, risk 0.40 → 0.25, uncertainty 0.30 → 0.28). -/
theorem overall_sentiment_delta_formula_witness :
    ∃ d, compare (⟨1, 0, 0.60, 0.40, 0.30⟩ : Analysis)
        (⟨1, 1, 0.78, 0.25, 0.28⟩ : Analysis) = .ok d
      ∧ d.overall = (d.optimismDelta - d.riskDelta - d.uncertaintyDelta) / 3 :=
  (overall_sentiment_delta_formula ⟨1, 0, 0.60, 0.40, 0.30⟩
    ⟨1, 1, 0.78, 0.25, 0.28⟩ rfl (by decide)).1

/-- C3: `compare(a, b)` fails with `ComparisonInvalidError` — returning no
Delta — exactly when the entities differ or b's filing date is not strictly
later than a's; otherwise it succeeds with the computed Delta. -/
theorem compare_invalid_iff (a b : Analysis) :
    (compare a b = .error .comparisonInvalid ↔
      a.entityId ≠ b.entityId ∨ b.filingDate ≤ a.filingDate)
    ∧ (a.entityId = b.entityId → a.filingDate < b.filingDate →
        compare a b = .ok (computeDelta a b)) := by
  constructor
  · unfold compare
    split_ifs with h1 h2 <;> simp_all
  · intro he hd
    simp [compare, he, not_le.mpr hd]

/-- C3 witness: the theorem applied to two analyses of different entities. -/
theorem compare_invalid_iff_witness :
    compare (⟨1, 0, 0, 0, 0⟩ : Analysis) (⟨2, 1, 0, 0, 0⟩ : Analysis)
      = .error .comparisonInvalid :=
  (compare_invalid_iff ⟨1, 0, 0, 0, 0⟩ ⟨2, 1, 0, 0, 0⟩).1.mpr
    (Or.inl (by decide))

/-! ### Batch aggregate status -/

theorem countFailed_pos_iff (l : List ReportStatus) :
    0 < countFailed l ↔ ∃ s ∈ l, s = .FAILED := by
  unfold countFailed
  rw [List.countP_pos_iff]
  simp

theorem countFailed_lt_length_iff (l : List ReportStatus) :
    countFailed l < l.length ↔ ∃ s ∈ l, s ≠ .FAILED := by
  constructor
  · intro h
    by_contra hc
    push_neg at hc
    have hall : countFailed l = l.length := by
      unfold countFailed
      rw [List.countP_eq_length]
      intro a ha
      simpa using hc a ha
    omega
  · rintro ⟨s, hs, hsne⟩
    have hle : countFailed l ≤ l.length := List.countP_le_length _
    rcases Nat.eq_or_lt_of_le hle with heq | hlt
    · exfalso
      unfold countFailed at heq
      rw [List.countP_eq_length] at heq
      exact hsne (by simpa using heq s hs)
    · exact hlt

/-- C4: for a nonempty batch, the aggregate status is PROCESSING while any
member is PENDING or PROCESSING; once all members are terminal it is
COMPLETED iff every member succeeded, FAILED iff every member failed, and
PARTIALLY_COMPLETED iff the number M of failures satisfies 0 < M < N. -/
theorem aggregate_status_rule (members : List ReportStatus)
    (hne : members ≠ []) :
    ((∃ s ∈ members, s = .PENDING ∨ s = .PROCESSING) →
      aggregateStatus members = .PROCESSING)
    ∧ ((∀ s ∈ members, isTerminal s = true) →
        ((aggregateStatus members = .COMPLETED ↔
            ∀ s ∈ members, s = .COMPLETED)
        ∧ (aggregateStatus members = .FAILED ↔ ∀ s ∈ members, s = .FAILED)
        ∧ (aggregateStatus members = .PARTIALLY_COMPLETED ↔
            0 < countFailed members ∧ countFailed members < members.length))) := by
  obtain ⟨s₀, hs₀⟩ := List.exists_mem_of_ne_nil members hne
  constructor
  · rintro ⟨s, hs, hval⟩
    have hA : (members.any fun s => s == .PENDING || s == .PROCESSING) = true := by
      rw [List.any_eq_true]
      refine ⟨s, hs, ?_⟩
      rcases hval with h | h <;> simp [h]
    simp [aggregateStatus, hA]
  · intro hterm
    have hA : (members.any fun s => s == .PENDING || s == .PROCESSING) = false := by
      rw [List.any_eq_false]
      intro s hs
      have := hterm s hs
      cases s <;> simp_all [isTerminal]
    by_cases hB : ∀ s ∈ members, s = ReportStatus.COMPLETED
    · have hBb : (members.all fun s => s == ReportStatus.COMPLETED) = true := by
        rw [List.all_eq_true]
        intro s hs
        simpa using hB s hs
      have hagg : aggregateStatus members = .COMPLETED := by
        simp [aggregateStatus, hA, hBb]
      have hnotFail : ¬ ∀ s ∈ members, s = ReportStatus.FAILED := by
        intro hC
        have h1 := hB s₀ hs₀
        have h2 := hC s₀ hs₀
        simp [h1] at h2
      refine ⟨?_, ?_, ?_⟩
      · rw [hagg]
        exact iff_of_true rfl hB
      · rw [hagg]
        exact iff_of_false (by simp) hnotFail
      · rw [hagg]
        refine iff_of_false (by simp) ?_
        rintro ⟨hpos, _⟩
        rcases (countFailed_pos_iff members).mp hpos with ⟨s, hs, hsf⟩
        have := hB s hs
        rw [this] at hsf
        exact absurd hsf (by simp)
    · have hB' := hB
      push_neg at hB'
      have hBb : (members.all fun s => s == ReportStatus.COMPLETED) = false := by
        rw [List.all_eq_false]
        rcases hB' with ⟨s, hs, hsne⟩
        exact ⟨s, hs, by simpa using hsne⟩
      by_cases hC : ∀ s ∈ members, s = ReportStatus.FAILED
      · have hCb : (members.all fun s => s == ReportStatus.FAILED) = true := by
          rw [List.all_eq_true]
          intro s hs
          simpa using hC s hs
        have hagg : aggregateStatus members = .FAILED := by
          simp [aggregateStatus, hA, hBb, hCb]
        refine ⟨?_, ?_, ?_⟩
        · rw [hagg]
          exact iff_of_false (by simp) hB
        · rw [hagg]
          exact iff_of_true rfl hC
        · rw [hagg]
          refine iff_of_false (by simp) ?_
          rintro ⟨_, hlt⟩
          rcases (countFailed_lt_length_iff members).mp hlt with ⟨s, hs, hsne⟩
          exact hsne (hC s hs)
      · have hC' := hC
        push_neg at hC'
        have hCb : (members.all fun s => s == ReportStatus.FAILED) = false := by
          rw [List.all_eq_false]
          rcases hC' with ⟨s, hs, hsne⟩
          exact ⟨s, hs, by simpa using hsne⟩
        have hagg : aggregateStatus members = .PARTIALLY_COMPLETED := by
          simp [aggregateStatus, hA, hBb, hCb]
        refine ⟨?_, ?_, ?_⟩
        · rw [hagg]
          exact iff_of_false (by simp) hB
        · rw [hagg]
          exact iff_of_false (by simp) hC
        · rw [hagg]
          refine iff_of_true rfl ⟨?_, ?_⟩
          · rw [countFailed_pos_iff]
            rcases hB' with ⟨s, hs, hsne⟩
            refine ⟨s, hs, ?_⟩
            have := hterm s hs
            cases s <;> simp_all [isTerminal]
          · rw [countFailed_lt_length_iff]
            rcases hC' with ⟨s, hs, hsne⟩
            exact ⟨s, hs, hsne⟩

/-- C4 witness: the theorem applied to a two-member batch with one success
and one failure, giving PARTIALLY_COMPLETED. -/
theorem aggregate_status_rule_witness :
    aggregateStatus [ReportStatus.COMPLETED, ReportStatus.FAILED]
      = BatchStatus.PARTIALLY_COMPLETED :=
  (((aggregate_status_rule [.COMPLETED, .FAILED] (by decide)).2
    (by decide)).2.2).mpr ⟨by decide, by decide⟩

/-! ### Alert preference thresholds -/

/-- C5: every stored AlertPreference threshold lies in [5, 50], and the
alerts panel's `clampPercent` maps every input into [5, 50]. -/
theorem threshold_in_range (v t : ℚ) (u e : Nat) (a : AlertType)
    (p : AlertPreference) (h : setAlertPreference u e a t = .ok p) :
    (5 ≤ clampPercent v ∧ clampPercent v ≤ 50)
    ∧ (5 ≤ p.thresholdPercentage ∧ p.thresholdPercentage ≤ 50) := by
  refine ⟨⟨le_min (by norm_num) (le_max_left 5 (jsRound v)), min_le_left _ _⟩, ?_⟩
  unfold setAlertPreference at h
  split_ifs at h with hc
  injection h with h'
  subst h'
  exact hc

/-- C5 witness: the theorem applied at input 3 and an accepted preference
with threshold 10. -/
theorem threshold_in_range_witness :
    (5 ≤ clampPercent 3 ∧ clampPercent 3 ≤ 50)
    ∧ (5 ≤ (⟨0, 0, .SENTIMENT_SHIFT, 10⟩ : AlertPreference).thresholdPercentage
        ∧ (⟨0, 0, .SENTIMENT_SHIFT, 10⟩ : AlertPreference).thresholdPercentage ≤ 50) :=
  threshold_in_range 3 10 0 0 .SENTIMENT_SHIFT ⟨0, 0, .SENTIMENT_SHIFT, 10⟩
    (by norm_num [setAlertPreference])

/-! ### Batch submission validation -/

/-- C6: `submit` rejects exactly the requests whose report list has
duplicates or exceeds the caller's tier limit (Basic 3, Pro within 5–7,
Enterprise 10), and accepts every duplicate-free list within the limit. -/
theorem submit_validation (proLimit : Nat) (tier : Tier)
    (reportIds : List Nat) (concurrencyLimit : Nat)
    (h₅ : 5 ≤ proLimit) (h₇ : proLimit ≤ 7) :
    ((∃ err, submit proLimit tier reportIds concurrencyLimit = .error err) ↔
      ¬ reportIds.Nodup ∨ tierLimit proLimit tier < reportIds.length)
    ∧ (reportIds.Nodup → reportIds.length ≤ tierLimit proLimit tier →
        submit proLimit tier reportIds concurrencyLimit
          = .ok ⟨reportIds, concurrencyLimit, .PENDING⟩)
    ∧ tierLimit proLimit .Basic = 3
    ∧ 5 ≤ tierLimit proLimit .Pro ∧ tierLimit proLimit .Pro ≤ 7
    ∧ tierLimit proLimit .Enterprise = 10 := by
  refine ⟨?_, ?_, rfl, h₅, h₇, rfl⟩
  · unfold submit
    split_ifs with h1 h2 <;> simp_all
  · intro hnd hlen
    unfold submit
    rw [if_neg (by omega), if_pos hnd]

/-- C6 witness: the theorem applied to a Basic-tier submission of two
distinct reports under Pro limit 7. -/
theorem submit_validation_witness :
    submit 7 .Basic [1, 2] 4 = .ok ⟨[1, 2], 4, .PENDING⟩ :=
  ((submit_validation 7 .Basic [1, 2] 4 (by decide) (by decide)).2.1)
    (by decide) (by decide)

/-! ### Requeue transitions -/

/-- C7: `requeue` on a FAILED report yields PENDING with `lastError`
cleared; on a COMPLETED report it is rejected without `force` (returning no
updated report) and yields PENDING with `force = true`. -/
theorem requeue_transitions (r : Report) (force : Bool) :
    (r.status = .FAILED →
      requeue r force = .ok { r with status := .PENDING, lastError := none })
    ∧ (r.status = .COMPLETED →
        requeue r false = .error .invalidState
        ∧ requeue r true = .ok { r with status := .PENDING, lastError := none }) := by
  obtain ⟨i, st, er⟩ := r
  constructor
  · intro hst
    subst hst
    rfl
  · intro hst
    subst hst
    exact ⟨rfl, rfl⟩

/-- C7 witness: the theorem applied to a FAILED report carrying an error
message. -/
theorem requeue_transitions_witness :
    requeue ⟨1, .FAILED, some "inference timeout"⟩ false
      = .ok ⟨1, .PENDING, none⟩ :=
  (requeue_transitions ⟨1, .FAILED, some "inference timeout"⟩ false).1 rfl

/-! ### Batch concurrency bound -/

theorem countProcessing_set_le (l : List ReportStatus) (i : Nat)
    (x : ReportStatus) (h : i < l.length) :
    countProcessing (l.set i x) ≤ countProcessing l + 1 := by
  unfold countProcessing
  rw [List.countP_set _ _ _ _ h]
  split_ifs <;> omega

theorem countProcessing_set_of_not (l : List ReportStatus) (i : Nat)
    (x : ReportStatus) (h : i < l.length)
    (hx : (x == ReportStatus.PROCESSING) = false) :
    countProcessing (l.set i x) ≤ countProcessing l := by
  unfold countProcessing
  rw [List.countP_set _ _ _ _ h]
  split_ifs <;> simp_all

theorem countProcessing_replicate_pending (n : Nat) :
    countProcessing (List.replicate n .PENDING) = 0 := by
  unfold countProcessing
  rw [List.countP_eq_zero]
  intro a ha
  rw [List.eq_of_mem_replicate ha]
  simp

theorem batchStep_preserves {s t : BatchRunState} (hst : BatchStep s t)
    (hinv : countProcessing s.members ≤ s.concurrencyLimit) :
    countProcessing t.members ≤ t.concurrencyLimit
    ∧ t.concurrencyLimit = s.concurrencyLimit := by
  cases hst with
  | claim i hp hlt =>
    refine ⟨?_, rfl⟩
    show countProcessing (s.members.set (↑i) .PROCESSING) ≤ s.concurrencyLimit
    have hle := countProcessing_set_le s.members (↑i) .PROCESSING i.isLt
    omega
  | complete i hp =>
    refine ⟨?_, rfl⟩
    show countProcessing (s.members.set (↑i) .COMPLETED) ≤ s.concurrencyLimit
    have hle := countProcessing_set_of_not s.members (↑i) .COMPLETED i.isLt rfl
    omega
  | fail i hp =>
    refine ⟨?_, rfl⟩
    show countProcessing (s.members.set (↑i) .FAILED) ≤ s.concurrencyLimit
    have hle := countProcessing_set_of_not s.members (↑i) .FAILED i.isLt rfl
    omega

/-- C8: in every reachable state of a batch run, the number of member
reports simultaneously in PROCESSING never exceeds the run's
`concurrencyLimit`, whose default is 4. -/
theorem batch_concurrency_bound (n limit : Nat) (s : BatchRunState)
    (h : BatchReachable n limit s) :
    countProcessing s.members ≤ limit ∧ defaultConcurrencyLimit = 4 := by
  refine ⟨?_, rfl⟩
  have key : countProcessing s.members ≤ limit ∧ s.concurrencyLimit = limit := by
    induction h with
    | refl =>
      refine ⟨?_, rfl⟩
      show countProcessing (List.replicate n ReportStatus.PENDING) ≤ limit
      rw [countProcessing_replicate_pending]
      exact Nat.zero_le _
    | tail hab hbc ih =>
      obtain ⟨ihc, ihl⟩ := ih
      have hpre := batchStep_preserves hbc (by rw [ihl]; exact ihc)
      constructor
      · have hc := hpre.1
        rw [hpre.2, ihl] at hc
        exact hc
      · rw [hpre.2, ihl]
  exact key.1

/-- C8 witness: the theorem applied after one claim step of a two-member
run under the default limit 4. -/
theorem batch_concurrency_bound_witness :
    countProcessing ((List.replicate 2 ReportStatus.PENDING).set 0
        ReportStatus.PROCESSING) ≤ 4
    ∧ defaultConcurrencyLimit = 4 :=
  batch_concurrency_bound 2 4 _
    (Relation.ReflTransGen.single
      (BatchStep.claim (initState 2 4) ⟨0, by decide⟩ (by decide) (by decide)))

/-! ### Comparison form: selectable report list -/

theorem reportDateDesc_trans (a b c : FinancialReport)
    (hab : reportDateDesc a b = true) (hbc : reportDateDesc b c = true) :
    reportDateDesc a c = true := by
  unfold reportDateDesc at hab hbc ⊢
  rw [decide_eq_true_iff] at hab hbc ⊢
  exact le_trans hbc hab

theorem reportDateDesc_total (a b : FinancialReport) :
    (reportDateDesc a b || reportDateDesc b a) = true := by
  unfold reportDateDesc
  rcases le_total (reportSortDate b) (reportSortDate a) with h | h <;> simp [h]

/-- C9: the selectable report list of the comparison form contains exactly
the fetched reports whose `processing_status` is COMPLETED, in descending
order of filing date (falling back to creation date). -/
theorem load_reports_selection (allReports : List FinancialReport) :
    (∀ r, r ∈ loadReportsSelect allReports ↔
        r ∈ allReports ∧ r.processing_status = "COMPLETED")
    ∧ List.Pairwise (fun a b => reportSortDate b ≤ reportSortDate a)
        (loadReportsSelect allReports) := by
  constructor
  · intro r
    unfold loadReportsSelect
    rw [List.mem_mergeSort, List.mem_filter]
    simp
  · have h := List.sorted_mergeSort reportDateDesc_trans reportDateDesc_total
      (allReports.filter fun r => r.processing_status == "COMPLETED")
    unfold loadReportsSelect
    refine h.imp ?_
    intro a b hab
    exact of_decide_eq_true hab

/-- C9 witness: the theorem applied to a two-report fetch with one
COMPLETED report. -/
theorem load_reports_selection_witness :
    (⟨1, "COMPLETED", some 7, 0⟩ : FinancialReport)
      ∈ loadReportsSelect
        [⟨1, "COMPLETED", some 7, 0⟩, ⟨2, "PENDING", none, 9⟩] :=
  ((load_reports_selection
      [⟨1, "COMPLETED", some 7, 0⟩, ⟨2, "PENDING", none, 9⟩]).1
    ⟨1, "COMPLETED", some 7, 0⟩).mpr ⟨by simp, rfl⟩

/-! ### Comparison form: submission guard -/

/-- C10: when the selected base and comparison report ids are equal or
either is empty, `handleCompare` records an error message, issues no
request, and leaves the displayed result unchanged. -/
theorem handle_compare_guard (baseReportId comparisonReportId : String)
    (s : CompareFormState)
    (h : baseReportId = comparisonReportId
      ∨ baseReportId = "" ∨ comparisonReportId = "") :
    (handleCompare baseReportId comparisonReportId s).2 = none
    ∧ (handleCompare baseReportId comparisonReportId s).1.result = s.result
    ∧ ∃ msg, (handleCompare baseReportId comparisonReportId s).1.error
        = some msg := by
  unfold handleCompare
  by_cases hb : baseReportId = "" ∨ comparisonReportId = ""
  · rw [if_pos hb]
    exact ⟨rfl, rfl, _, rfl⟩
  · rw [if_neg hb]
    have heq : baseReportId = comparisonReportId := by
      rcases h with h | h | h
      · exact h
      · exact absurd (Or.inl h) hb
      · exact absurd (Or.inr h) hb
    rw [if_pos heq]
    exact ⟨rfl, rfl, _, rfl⟩

/-- C10 witness: the theorem applied to a submission selecting the same
report twice, with a previous result displayed. -/
theorem handle_compare_guard_witness :
    (handleCompare "r1" "r1" ⟨none, some 7⟩).2 = none :=
  (handle_compare_guard "r1" "r1" ⟨none, some 7⟩ (Or.inl rfl)).1

end FNA
